import Mathlib

/-!
Shallow embedding of the live-tracking-maps repository: the server event store
and resolvers (server/src/resolvers.ts), the position simulator
(server/src/geo-simulator.ts), and the client-side reconstruction state
(ui/src/App.tsx, ui/src/components/Map.tsx, ui/src/components/NotificationBell.tsx).
Coordinates are modelled as exact rationals; JS arrays as lists; JS Map objects
as association lists with insert-or-replace update; the JS Set of filtered
identifiers as a Finset of strings.
-/

namespace LiveTracking

/-- The GeoData record (server/src/schema.ts and ui/src/graphql/subscriptions.ts). -/
structure GeoData where
  id : String
  name : String
  lat : ℚ
  lon : ℚ
  identifier : String
  timestamp : String
deriving DecidableEq, Repr

/-! ## Server: resolvers.ts -/

/-- Server-side mutable state: the in-memory geoDataStore array. -/
structure ServerState where
  geoDataStore : List GeoData
deriving DecidableEq, Repr

/-- addGeoData (resolvers.ts): pushes the event onto geoDataStore
(the pubsub publish fan-out is outside this state). -/
def addGeoData (geoData : GeoData) (s : ServerState) : ServerState :=
  { s with geoDataStore := s.geoDataStore ++ [geoData] }

/-- A reference to a JS array of GeoData that the geoDataList resolver can
return. The resolver body is a plain arrow returning the geoDataStore variable
itself, so the only array object it ever returns is the store array; the
reference is dereferenced against the server state current at read time. -/
inductive GeoArrayRef
  | storeArray
deriving DecidableEq, Repr

/-- Query.geoDataList (resolvers.ts): returns geoDataStore itself —
the same array object that addGeoData pushes onto — without copying. -/
def geoDataList (_s : ServerState) : GeoArrayRef :=
  GeoArrayRef.storeArray

/-- Dereference an array reference in a given server state: reading the store
array yields the store contents current at read time. -/
def readArray (s : ServerState) : GeoArrayRef → List GeoData
  | GeoArrayRef.storeArray => s.geoDataStore

/-! ## Server: geo-simulator.ts -/

/-- One entry of the IDENTIFIER_POOL configuration list. -/
structure Vehicle where
  id : String
  name : String
  lat : ℚ
  lon : ℚ
deriving DecidableEq, Repr

/-- The Europe bounding box BOUNDS (geo-simulator.ts). -/
structure GeoBounds where
  minLat : ℚ
  maxLat : ℚ
  minLon : ℚ
  maxLon : ℚ
deriving DecidableEq, Repr

def BOUNDS : GeoBounds :=
  { minLat := 35.0, maxLat := 60.0, minLon := -10.0, maxLon := 30.0 }

/-- The pool of 5 identifiers with starting positions (geo-simulator.ts). -/
def IDENTIFIER_POOL : List Vehicle :=
  [ { id := "VEHICLE-001", name := "Truck Alpha", lat := 52.52, lon := 13.405 },
    { id := "VEHICLE-002", name := "Van Beta", lat := 48.8566, lon := 2.3522 },
    { id := "VEHICLE-003", name := "Car Gamma", lat := 51.5074, lon := -0.1278 },
    { id := "VEHICLE-004", name := "Bike Delta", lat := 41.9028, lon := 12.4964 },
    { id := "VEHICLE-005", name := "Drone Echo", lat := 52.3676, lon := 4.9041 } ]

/-- Lookup in an association list modelling a JS Map (first matching key). -/
def assocLookup {β : Type} : List (String × β) → String → Option β
  | [], _ => none
  | (k0, v0) :: rest, k => if k0 = k then some v0 else assocLookup rest k

/-- JS Map.set: replace the value at an existing key in place, or append a new
entry when the key is absent. -/
def assocSet {β : Type} : List (String × β) → String → β → List (String × β)
  | [], k, v => [(k, v)]
  | (k0, v0) :: rest, k, v =>
    if k0 = k then (k, v) :: rest else (k0, v0) :: assocSet rest k v

/-- currentPositions initialisation: IDENTIFIER_POOL.forEach set(id, {lat, lon}). -/
def initialPositions : List (String × ℚ × ℚ) :=
  IDENTIFIER_POOL.map (fun v => (v.id, v.lat, v.lon))

/-- Mutable simulator state: the currentPositions map and the counter. -/
structure SimState where
  currentPositions : List (String × ℚ × ℚ)
  counter : ℕ
deriving DecidableEq, Repr

def initSimState : SimState :=
  { currentPositions := initialPositions, counter := 0 }

/-- JS Math.round: round half toward positive infinity. -/
def jsRound (x : ℚ) : ℤ := ⌊x + 1 / 2⌋

/-- Math.round(x * 1000000) / 1000000 — rounding to 6 decimal places. -/
def round6 (x : ℚ) : ℚ := (jsRound (x * 1000000) : ℚ) / 1000000

/-- Math.max(BOUNDS.minLat, Math.min(BOUNDS.maxLat, x)). -/
def clampLat (x : ℚ) : ℚ := max BOUNDS.minLat (min BOUNDS.maxLat x)

/-- Math.max(BOUNDS.minLon, Math.min(BOUNDS.maxLon, x)). -/
def clampLon (x : ℚ) : ℚ := max BOUNDS.minLon (min BOUNDS.maxLon x)

/-- generateRandomGeoData (geo-simulator.ts). The randomness is passed in:
rIdx models Math.floor(Math.random() * pool.length) (the selected pool index),
r1 and r2 model the two Math.random() draws for the deltas, nowMs models
Date.now() and nowIso the ISO timestamp. Returns none when the selected pool
entry or its stored position is missing (the undefined accesses that throw at
runtime in JS, e.g. with an empty pool), otherwise the produced event and the
updated simulator state. -/
def generateRandomGeoData (pool : List Vehicle) (rIdx : ℕ) (r1 r2 : ℚ)
    (nowMs nowIso : String) (s : SimState) : Option (GeoData × SimState) :=
  let counter1 := s.counter + 1
  match pool[rIdx]? with
  | none => none
  | some vehicle =>
    match assocLookup s.currentPositions vehicle.id with
    | none => none
    | some currentPos =>
      let latDelta := (r1 - 1 / 2) * (3 / 10)
      let lonDelta := (r2 - 1 / 2) * (3 / 10)
      let newLat := clampLat (currentPos.1 + latDelta)
      let newLon := clampLon (currentPos.2 + lonDelta)
      let positions1 := assocSet s.currentPositions vehicle.id (newLat, newLon)
      some
        ({ id := "geo-" ++ nowMs ++ "-" ++ toString counter1,
           name := vehicle.name,
           lat := round6 newLat,
           lon := round6 newLon,
           identifier := vehicle.id,
           timestamp := nowIso },
         { currentPositions := positions1, counter := counter1 })

/-- Outcome of starting the simulator. -/
inductive StartOutcome
  | started
  | configError
deriving DecidableEq, Repr

/-- startGeoSimulator (geo-simulator.ts): the body only logs the interval and
the pool summary and registers the periodic tick with setInterval; it contains
no validation of the pool at all, so startup reaches the started state for
every pool, the empty one included. The first tick then runs
generateRandomGeoData. -/
def startGeoSimulator (_pool : List Vehicle) (_intervalMs : ℕ) : StartOutcome :=
  StartOutcome.started

/-! ## Client: App.tsx -/

/-- JS arr.slice(-k): the last k elements of the list (all of it when shorter). -/
def takeLast {α : Type} (k : ℕ) (l : List α) : List α :=
  l.drop (l.length - k)

/-- The App component state: filteredIdentifiers, recentData, notifications,
focusPoint. -/
structure AppState where
  filteredIdentifiers : Finset String
  recentData : List GeoData
  notifications : List GeoData
  focusPoint : Option GeoData

def initialAppState : AppState :=
  { filteredIdentifiers := ∅, recentData := [], notifications := [],
    focusPoint := none }

/-- handleNewGeoData (App.tsx):
setRecentData(prev slice(-50) with data appended) and
setNotifications(prev slice(-99) with data appended). -/
def handleNewGeoData (data : GeoData) (s : AppState) : AppState :=
  { s with
    recentData := takeLast 50 s.recentData ++ [data],
    notifications := takeLast 99 s.notifications ++ [data] }

/-! ## Client: Map.tsx -/

/-- A feature of the points vector source. The style field models the
setStyle override: none is the layer default (rendered), some () is the empty
Style({}) override (hidden). -/
structure PointFeature where
  fid : String
  name : String
  identifier : String
  lat : ℚ
  lon : ℚ
  timestamp : String
  isLatest : Bool
  pointIndex : ℕ
  style : Option Unit
deriving DecidableEq, Repr

/-- A feature of the lines vector source. -/
structure LineFeature where
  fid : String
  identifier : String
  coords : List (ℚ × ℚ)
  style : Option Unit
deriving DecidableEq, Repr

/-- The MapView component refs: the geoDataByIdentifier map and the two
vector sources. -/
structure MapState where
  geoDataByIdentifier : List (String × List GeoData)
  points : List PointFeature
  lines : List LineFeature
deriving DecidableEq, Repr

def initialMapState : MapState :=
  { geoDataByIdentifier := [], points := [], lines := [] }

/-- The forEach in the subscription-data effect that clears the previous
latest flag: every feature with the incoming identifier whose isLatest flag is
set gets it cleared. -/
def clearLatest (pts : List PointFeature) (tid : String) : List PointFeature :=
  pts.map (fun f =>
    if f.identifier = tid ∧ f.isLatest = true then { f with isLatest := false }
    else f)

/-- The new point feature constructed for an incoming event: flagged latest,
no style override. -/
def mkPointFeature (g : GeoData) (idx : ℕ) : PointFeature :=
  { fid := g.id, name := g.name, identifier := g.identifier, lat := g.lat,
    lon := g.lon, timestamp := g.timestamp, isLatest := true,
    pointIndex := idx, style := none }

/-- The route-line update: getFeatureById then setCoordinates when the line
exists, otherwise addFeature of a fresh line feature. -/
def updateLine (lns : List LineFeature) (lineId tid : String)
    (cs : List (ℚ × ℚ)) : List LineFeature :=
  if lns.any (fun l => l.fid = lineId) then
    lns.map (fun l => if l.fid = lineId then { l with coords := cs } else l)
  else
    lns ++ [{ fid := lineId, identifier := tid, coords := cs, style := none }]

/-- The effect of one incoming event on the points source: clear the previous
latest flag of features with the same identifier, then add the new point
feature. -/
def pointsStep (pts : List PointFeature) (g : GeoData) (idx : ℕ) :
    List PointFeature :=
  clearLatest pts g.identifier ++ [mkPointFeature g idx]

/-- The subscription-data effect of MapView (Map.tsx), one incoming event:
push the event onto the per-identifier list, clear the previous latest flag,
add the new point feature (with pointIndex = length of the per-identifier
list after the push), and update the route line once the list has at least
two entries. Coordinate pairs of the line are stored as (lon, lat), the
arguments of fromLonLat. -/
def processEvent (s : MapState) (g : GeoData) : MapState :=
  let identifierData := (assocLookup s.geoDataByIdentifier g.identifier).getD [] ++ [g]
  let trails1 := assocSet s.geoDataByIdentifier g.identifier identifierData
  let points1 := pointsStep s.points g identifierData.length
  let lines1 :=
    if 2 ≤ identifierData.length then
      updateLine s.lines ("line-" ++ g.identifier) g.identifier
        (identifierData.map (fun d => (d.lon, d.lat)))
    else s.lines
  { geoDataByIdentifier := trails1, points := points1, lines := lines1 }

/-- The visibility condition of the filter effect (Map.tsx):
filteredIdentifiers.size === 0 || filteredIdentifiers.has(identifier). -/
def visibleUnder (filtered : Finset String) (identifier : String) : Prop :=
  filtered.card = 0 ∨ identifier ∈ filtered

instance (filtered : Finset String) (identifier : String) :
    Decidable (visibleUnder filtered identifier) := by
  unfold visibleUnder; infer_instance

/-- The filter effect on the points source: setStyle(undefined) when visible,
setStyle(new Style({})) when not. -/
def applyFilterPoints (filtered : Finset String) (pts : List PointFeature) :
    List PointFeature :=
  pts.map (fun f =>
    if visibleUnder filtered f.identifier then { f with style := none }
    else { f with style := some () })

/-- The filter effect on the lines source. -/
def applyFilterLines (filtered : Finset String) (lns : List LineFeature) :
    List LineFeature :=
  lns.map (fun f =>
    if visibleUnder filtered f.identifier then { f with style := none }
    else { f with style := some () })

/-- The data carried by a point feature apart from its style override. -/
def pointData (f : PointFeature) : String × String × String × ℚ × ℚ × String × Bool × ℕ :=
  (f.fid, f.name, f.identifier, f.lat, f.lon, f.timestamp, f.isLatest, f.pointIndex)

/-- The data carried by a line feature apart from its style override. -/
def lineData (f : LineFeature) : String × String × List (ℚ × ℚ) :=
  (f.fid, f.identifier, f.coords)

/-! ## Client: App.tsx clicks and NotificationBell.tsx sidebar -/

/-- The whole client-side reconstruction state: the App component state plus
the MapView refs. -/
structure ClientState where
  app : AppState
  mapState : MapState

/-- handleNotificationClick (App.tsx): filter the clicked id out of the
notifications and set the focus point; nothing else is touched (the MapView
refs are not accessible to this handler). -/
def handleNotificationClick (data : GeoData) (s : ClientState) : ClientState :=
  { s with app := { s.app with
      notifications := s.app.notifications.filter (fun n => !(n.id == data.id)),
      focusPoint := some data } }

/-- Sidebar.handleCheckboxChange (NotificationBell.tsx): copy the set, then
add the identifier when checked and delete it when unchecked. -/
def handleCheckboxChange (filteredIdentifiers : Finset String)
    (identifier : String) (checked : Bool) : Finset String :=
  if checked then insert identifier filteredIdentifiers
  else filteredIdentifiers.erase identifier

/-- The checked expression of a sidebar checkbox (NotificationBell.tsx):
filteredIdentifiers.size === 0 || filteredIdentifiers.has(vehicle.id). -/
def checkboxChecked (filteredIdentifiers : Finset String)
    (identifier : String) : Prop :=
  filteredIdentifiers.card = 0 ∨ identifier ∈ filteredIdentifiers

instance (filtered : Finset String) (identifier : String) :
    Decidable (checkboxChecked filtered identifier) := by
  unfold checkboxChecked; infer_instance

/-! ## Lemmas about takeLast (JS slice(-k)) -/

section TakeLastLemmas

variable {α : Type}

theorem takeLast_of_le {k : ℕ} {l : List α} (h : l.length ≤ k) :
    takeLast k l = l := by
  unfold takeLast
  rw [Nat.sub_eq_zero_of_le h, List.drop_zero]

theorem takeLast_length (k : ℕ) (l : List α) :
    (takeLast k l).length = min k l.length := by
  unfold takeLast
  rw [List.length_drop]
  omega

theorem takeLast_concat (k : ℕ) (l : List α) (a : α) :
    takeLast (k + 1) (l ++ [a]) = takeLast k l ++ [a] := by
  unfold takeLast
  rw [List.drop_append_eq_append_drop]
  have e2 : (l ++ [a]).length - (k + 1) - l.length = 0 := by
    simp only [List.length_append, List.length_cons, List.length_nil]; omega
  have e1 : (l ++ [a]).length - (k + 1) = l.length - k := by
    simp only [List.length_append, List.length_cons, List.length_nil]; omega
  rw [e2, List.drop_zero, e1]

theorem takeLast_takeLast (j k : ℕ) (l : List α) (h : j ≤ k) :
    takeLast j (takeLast k l) = takeLast j l := by
  unfold takeLast
  rw [List.length_drop, List.drop_drop]
  congr 1
  omega

theorem takeLast_append_small (k : ℕ) (l r : List α) (h : r.length ≤ k) :
    takeLast k (l ++ r) = takeLast (k - r.length) l ++ r := by
  unfold takeLast
  rw [List.drop_append_eq_append_drop]
  have e2 : (l ++ r).length - k - l.length = 0 := by
    simp only [List.length_append]; omega
  have e1 : (l ++ r).length - k = l.length - (k - r.length) := by
    simp only [List.length_append]; omega
  rw [e2, List.drop_zero, e1]

theorem takeLast_append_large (k : ℕ) (l r : List α) (h : k ≤ r.length) :
    takeLast k (l ++ r) = takeLast k r := by
  unfold takeLast
  rw [List.drop_append_eq_append_drop]
  have e2 : (l ++ r).length - k - l.length = r.length - k := by
    simp only [List.length_append]; omega
  have e1 : l.drop ((l ++ r).length - k) = [] := by
    apply List.drop_eq_nil_of_le
    simp only [List.length_append]; omega
  rw [e2, e1, List.nil_append]

theorem takeLast_idem_append (k : ℕ) (l r : List α) :
    takeLast k (takeLast k l ++ r) = takeLast k (l ++ r) := by
  by_cases h : k ≤ r.length
  · rw [takeLast_append_large k _ r h, takeLast_append_large k l r h]
  · push_neg at h
    have h1 : r.length ≤ k := le_of_lt h
    rw [takeLast_append_small k _ r h1, takeLast_append_small k l r h1,
      takeLast_takeLast _ k l (by omega)]

/-- The list-level recurrence of both bounded windows in handleNewGeoData:
folding slice(-k)-then-append over the arriving events keeps exactly the last
k + 1 of everything seen. -/
theorem foldl_slide (k : ℕ) (evs : List α) (acc : List α)
    (h : acc.length ≤ k + 1) :
    evs.foldl (fun l d => takeLast k l ++ [d]) acc
      = takeLast (k + 1) (acc ++ evs) := by
  induction evs generalizing acc with
  | nil =>
    simp only [List.foldl_nil, List.append_nil]
    exact (takeLast_of_le h).symm
  | cons d evs ih =>
    rw [List.foldl_cons,
      ih (takeLast k acc ++ [d])
        (by simp only [List.length_append, takeLast_length, List.length_cons,
              List.length_nil]; omega),
      show takeLast k acc ++ [d] = takeLast (k + 1) (acc ++ [d]) from
        (takeLast_concat k acc d).symm,
      takeLast_idem_append]
    congr 1
    simp

end TakeLastLemmas

/-! ## The App state after a sequence of events -/

/-- The notifications list after the App processes a sequence of events from
its initial state. -/
def notifAfter (evs : List GeoData) : List GeoData :=
  (evs.foldl (fun st d => handleNewGeoData d st) initialAppState).notifications

/-- The recentData list after the App processes a sequence of events from its
initial state. -/
def recentAfter (evs : List GeoData) : List GeoData :=
  (evs.foldl (fun st d => handleNewGeoData d st) initialAppState).recentData

theorem foldl_notifications (evs : List GeoData) (s : AppState) :
    (evs.foldl (fun st d => handleNewGeoData d st) s).notifications
      = evs.foldl (fun l d => takeLast 99 l ++ [d]) s.notifications := by
  induction evs generalizing s with
  | nil => rfl
  | cons d evs ih => rw [List.foldl_cons, List.foldl_cons, ih]; rfl

theorem foldl_recentData (evs : List GeoData) (s : AppState) :
    (evs.foldl (fun st d => handleNewGeoData d st) s).recentData
      = evs.foldl (fun l d => takeLast 50 l ++ [d]) s.recentData := by
  induction evs generalizing s with
  | nil => rfl
  | cons d evs ih => rw [List.foldl_cons, List.foldl_cons, ih]; rfl

theorem notifAfter_eq (evs : List GeoData) : notifAfter evs = takeLast 100 evs := by
  unfold notifAfter
  rw [foldl_notifications, show initialAppState.notifications = [] from rfl,
    foldl_slide 99 evs [] (by simp)]
  rfl

theorem recentAfter_eq (evs : List GeoData) : recentAfter evs = takeLast 51 evs := by
  unfold recentAfter
  rw [foldl_recentData, show initialAppState.recentData = [] from rfl,
    foldl_slide 50 evs [] (by simp)]
  rfl

/-! ## Concrete sample events used by witnesses and counterexamples -/

def gd0 : GeoData :=
  { id := "geo-1-1", name := "Truck Alpha", lat := 52, lon := 13,
    identifier := "VEHICLE-001", timestamp := "t1" }

def gd1 : GeoData :=
  { id := "geo-1-2", name := "Truck Alpha", lat := 53, lon := 14,
    identifier := "VEHICLE-001", timestamp := "t2" }

/-! ## Claim C1 -/

/-- Claim C1, as stated, is false: geoDataList does not return a point-in-time
copy. At the concrete state with an empty store, reading the returned
reference after one addGeoData yields the appended event, so the returned
sequence is affected by an append performed after the call. -/
theorem geoDataList_snapshot_counterexample :
    readArray (addGeoData gd0 { geoDataStore := [] })
        (geoDataList { geoDataStore := [] })
      ≠ readArray { geoDataStore := [] } (geoDataList { geoDataStore := [] }) := by
  decide

/-- Claim C1 (amended): the geoDataList resolver returns the live store array
by reference, so the sequence read through the returned reference after a
subsequent addGeoData is the sequence observed at call time with the newly
appended event at the tail — a live view, not a point-in-time copy. -/
theorem geoDataList_live_reference (s : ServerState) (g : GeoData) :
    readArray (addGeoData g s) (geoDataList s)
      = readArray s (geoDataList s) ++ [g] := rfl

/-! ## Claim C2 -/

/-- Claim C2: after more than 100 events are appended via handleNewGeoData the
notifications list has size exactly 100 and holds exactly the 100 most
recently appended events in arrival order; after at most 100 events it holds
all of them. -/
theorem notifications_cap_100 (evs : List GeoData) :
    (100 < evs.length →
      (notifAfter evs).length = 100 ∧ notifAfter evs = takeLast 100 evs)
    ∧ (evs.length ≤ 100 → notifAfter evs = evs) := by
  refine ⟨fun h => ⟨?_, notifAfter_eq evs⟩, fun h => ?_⟩
  · rw [notifAfter_eq, takeLast_length]; omega
  · rw [notifAfter_eq, takeLast_of_le h]

/-- Witness for C2 at the concrete sequence of 101 identical events. -/
theorem notifications_cap_100_witness :
    (notifAfter (List.replicate 101 gd0)).length = 100
      ∧ notifAfter (List.replicate 101 gd0)
          = takeLast 100 (List.replicate 101 gd0) :=
  (notifications_cap_100 (List.replicate 101 gd0)).1 (by decide)

/-! ## Claim C3 -/

/-- Claim C3, as stated, is false: after 51 events (more than 50) the
recentData window has length 51, not 50, because handleNewGeoData keeps the
last 50 of the previous list and then appends the new event. -/
theorem recent_cap_50_counterexample :
    50 < (List.replicate 51 gd0).length
      ∧ (recentAfter (List.replicate 51 gd0)).length ≠ 50 := by
  refine ⟨by decide, ?_⟩
  rw [recentAfter_eq, takeLast_length]
  decide

/-- Claim C3 (amended): the recent-events window holds at most the last 51
received events — handleNewGeoData keeps the last 50 of the previous window
and appends the new event — so after more than 50 events its length is
exactly 51 and it holds the 51 most recent events in arrival order; after at
most 50 events it holds all of them. -/
theorem recent_window_cap_51 (evs : List GeoData) :
    (50 < evs.length →
      (recentAfter evs).length = 51 ∧ recentAfter evs = takeLast 51 evs)
    ∧ (evs.length ≤ 50 → recentAfter evs = evs) := by
  refine ⟨fun h => ⟨?_, recentAfter_eq evs⟩, fun h => ?_⟩
  · rw [recentAfter_eq, takeLast_length]; omega
  · rw [recentAfter_eq, takeLast_of_le (by omega)]

/-- Witness for the amended C3 at the concrete sequence of 51 identical
events. -/
theorem recent_window_cap_51_witness :
    (recentAfter (List.replicate 51 gd0)).length = 51
      ∧ recentAfter (List.replicate 51 gd0)
          = takeLast 51 (List.replicate 51 gd0) :=
  (recent_window_cap_51 (List.replicate 51 gd0)).1 (by decide)

/-! ## Filter effect lemmas -/

theorem applyFilterPoints_empty_rendered (pts : List PointFeature) :
    ∀ f ∈ applyFilterPoints ∅ pts, f.style = none := by
  intro f hf
  simp only [applyFilterPoints, List.mem_map] at hf
  obtain ⟨f0, _, rfl⟩ := hf
  rw [if_pos (show visibleUnder ∅ f0.identifier from Or.inl Finset.card_empty)]

theorem applyFilterLines_empty_rendered (lns : List LineFeature) :
    ∀ f ∈ applyFilterLines ∅ lns, f.style = none := by
  intro f hf
  simp only [applyFilterLines, List.mem_map] at hf
  obtain ⟨f0, _, rfl⟩ := hf
  rw [if_pos (show visibleUnder ∅ f0.identifier from Or.inl Finset.card_empty)]

theorem applyFilterPoints_mem_iff (filtered : Finset String)
    (hne : filtered ≠ ∅) (pts : List PointFeature) :
    ∀ f ∈ applyFilterPoints filtered pts,
      (f.style = none ↔ f.identifier ∈ filtered) := by
  intro f hf
  simp only [applyFilterPoints, List.mem_map] at hf
  obtain ⟨f0, _, rfl⟩ := hf
  by_cases hv : visibleUnder filtered f0.identifier
  · rw [if_pos hv]
    rcases hv with hc | hm
    · exact absurd (Finset.card_eq_zero.mp hc) hne
    · simpa using hm
  · rw [if_neg hv]
    unfold visibleUnder at hv
    push_neg at hv
    simp [hv.2]

theorem applyFilterLines_mem_iff (filtered : Finset String)
    (hne : filtered ≠ ∅) (lns : List LineFeature) :
    ∀ f ∈ applyFilterLines filtered lns,
      (f.style = none ↔ f.identifier ∈ filtered) := by
  intro f hf
  simp only [applyFilterLines, List.mem_map] at hf
  obtain ⟨f0, _, rfl⟩ := hf
  by_cases hv : visibleUnder filtered f0.identifier
  · rw [if_pos hv]
    rcases hv with hc | hm
    · exact absurd (Finset.card_eq_zero.mp hc) hne
    · simpa using hm
  · rw [if_neg hv]
    unfold visibleUnder at hv
    push_neg at hv
    simp [hv.2]

theorem map_pointData_applyFilterPoints (filtered : Finset String)
    (pts : List PointFeature) :
    (applyFilterPoints filtered pts).map pointData = pts.map pointData := by
  unfold applyFilterPoints
  rw [List.map_map]
  apply List.map_congr_left
  intro f _
  by_cases hv : visibleUnder filtered f.identifier <;>
    simp [hv, pointData, Function.comp]

theorem map_lineData_applyFilterLines (filtered : Finset String)
    (lns : List LineFeature) :
    (applyFilterLines filtered lns).map lineData = lns.map lineData := by
  unfold applyFilterLines
  rw [List.map_map]
  apply List.map_congr_left
  intro f _
  by_cases hv : visibleUnder filtered f.identifier <;>
    simp [hv, lineData, Function.comp]

/-! ## Claim C4 -/

/-- Claim C4: under an empty filter set every point and route-line feature is
rendered with the default (visible) style; under a non-empty filter set
exactly the features whose identifier is a member of the set are rendered
visible; and applying the filter never removes features or changes their data,
only their style override. -/
theorem filter_visibility (filtered : Finset String) (pts : List PointFeature)
    (lns : List LineFeature) :
    (filtered = ∅ →
      (∀ f ∈ applyFilterPoints filtered pts, f.style = none)
      ∧ (∀ f ∈ applyFilterLines filtered lns, f.style = none))
    ∧ (filtered ≠ ∅ →
      (∀ f ∈ applyFilterPoints filtered pts,
        (f.style = none ↔ f.identifier ∈ filtered))
      ∧ (∀ f ∈ applyFilterLines filtered lns,
        (f.style = none ↔ f.identifier ∈ filtered)))
    ∧ (applyFilterPoints filtered pts).map pointData = pts.map pointData
    ∧ (applyFilterLines filtered lns).map lineData = lns.map lineData := by
  refine ⟨?_, ?_, map_pointData_applyFilterPoints filtered pts,
    map_lineData_applyFilterLines filtered lns⟩
  · rintro rfl
    exact ⟨applyFilterPoints_empty_rendered pts, applyFilterLines_empty_rendered lns⟩
  · intro hne
    exact ⟨applyFilterPoints_mem_iff filtered hne pts,
      applyFilterLines_mem_iff filtered hne lns⟩

/-- A concrete point feature for witnesses. -/
def pf0 : PointFeature :=
  { fid := "geo-1-1", name := "Truck Alpha", identifier := "VEHICLE-001",
    lat := 52, lon := 13, timestamp := "t1", isLatest := true,
    pointIndex := 1, style := none }

/-- Witness for C4 at a concrete one-element filter set and one point. -/
theorem filter_visibility_witness :
    pf0.style = none ↔ pf0.identifier ∈ ({"VEHICLE-001"} : Finset String) :=
  ((filter_visibility {"VEHICLE-001"} [pf0] []).2.1 (by decide)).1 pf0 (by decide)

/-! ## Claim C10 -/

/-- Claim C10: in the show-all state (empty filter set) unchecking any
vehicle's checkbox deletes its id from the empty set and yields the empty set
again, so the filter state is unchanged, every point feature — the unchecked
vehicle's included — is still rendered with the default style, and the
checkbox is still displayed as checked: a single vehicle cannot be excluded
starting from show-all. -/
theorem uncheck_from_show_all (identifier : String) (pts : List PointFeature) :
    handleCheckboxChange ∅ identifier false = ∅
    ∧ checkboxChecked (handleCheckboxChange ∅ identifier false) identifier
    ∧ applyFilterPoints (handleCheckboxChange ∅ identifier false) pts
        = applyFilterPoints ∅ pts
    ∧ ∀ f ∈ applyFilterPoints (handleCheckboxChange ∅ identifier false) pts,
        f.style = none := by
  have h0 : handleCheckboxChange ∅ identifier false = ∅ := by
    simp [handleCheckboxChange]
  refine ⟨h0, ?_, by rw [h0], ?_⟩
  · rw [h0]
    exact Or.inl Finset.card_empty
  · rw [h0]
    exact applyFilterPoints_empty_rendered pts

/-- Witness for C10 at a concrete vehicle id. -/
theorem uncheck_from_show_all_witness :
    handleCheckboxChange ∅ "VEHICLE-003" false = ∅
    ∧ checkboxChecked (handleCheckboxChange ∅ "VEHICLE-003" false)
        "VEHICLE-003" :=
  ⟨(uncheck_from_show_all "VEHICLE-003" []).1,
    (uncheck_from_show_all "VEHICLE-003" []).2.1⟩

/-! ## Claim C9 -/

/-- Claim C9: clicking a notification removes exactly the queue entries whose
id equals the clicked event's id, and leaves the other queue entries, the
recent-events window, the filter set, and the whole map state — the
per-entity trails and every point feature, the clicked event's point
included — unchanged. -/
theorem notification_click_frame (data : GeoData) (s : ClientState) :
    (∀ n, n ∈ (handleNotificationClick data s).app.notifications
        ↔ (n ∈ s.app.notifications ∧ n.id ≠ data.id))
    ∧ (handleNotificationClick data s).app.recentData = s.app.recentData
    ∧ (handleNotificationClick data s).app.filteredIdentifiers
        = s.app.filteredIdentifiers
    ∧ (handleNotificationClick data s).mapState = s.mapState
    ∧ ∀ f ∈ s.mapState.points, f.fid = data.id
        → f ∈ (handleNotificationClick data s).mapState.points := by
  refine ⟨?_, rfl, rfl, rfl, ?_⟩
  · intro n
    simp [handleNotificationClick, List.mem_filter]
  · intro f hf _
    exact hf

/-- A concrete App state for the C9 witness. -/
def app0 : AppState :=
  { filteredIdentifiers := ∅, recentData := [gd0],
    notifications := [gd0, gd1], focusPoint := none }

/-- A concrete client state for the C9 witness. -/
def cs0 : ClientState :=
  { app := app0, mapState := initialMapState }

/-- Witness for C9 at a concrete click. -/
theorem notification_click_frame_witness :
    gd1 ∈ (handleNotificationClick gd0 cs0).app.notifications
      ↔ (gd1 ∈ cs0.app.notifications ∧ gd1.id ≠ gd0.id) :=
  (notification_click_frame gd0 cs0).1 gd1

/-! ## Claim C5: latest-flag uniqueness -/

/-- The per-identifier trail of point features reconstructed by MapView from a
sequence of incoming events. -/
def trailOf (evs : List GeoData) (tid : String) : List PointFeature :=
  ((evs.foldl processEvent initialMapState).points).filter
    (fun f => f.identifier == tid)

theorem mem_clearLatest_cleared (pts : List PointFeature) (tid : String) :
    ∀ f ∈ clearLatest pts tid, f.identifier = tid → f.isLatest = false := by
  intro f hf hid
  simp only [clearLatest, List.mem_map] at hf
  obtain ⟨f0, _, rfl⟩ := hf
  by_cases hc : f0.identifier = tid ∧ f0.isLatest = true
  · rw [if_pos hc]
  · rw [if_neg hc] at hid ⊢
    cases hb : f0.isLatest with
    | false => rfl
    | true => exact absurd ⟨hid, hb⟩ hc

theorem filter_map_comm (fn : PointFeature → PointFeature) (tid : String)
    (hkey : ∀ f, (fn f).identifier = f.identifier) (pts : List PointFeature) :
    (pts.map fn).filter (fun f => f.identifier == tid)
      = (pts.filter (fun f => f.identifier == tid)).map fn := by
  induction pts with
  | nil => rfl
  | cons f rest ih =>
    rw [List.map_cons, List.filter_cons, List.filter_cons]
    have hfn : ((fn f).identifier == tid) = (f.identifier == tid) := by
      rw [hkey]
    by_cases hc : (f.identifier == tid) = true
    · rw [if_pos (by rw [hfn]; exact hc), if_pos hc, List.map_cons, ih]
    · rw [if_neg (by rw [hfn]; exact hc), if_neg hc, ih]

theorem map_eq_self_of {α : Type} (l : List α) (fn : α → α)
    (h : ∀ a ∈ l, fn a = a) : l.map fn = l := by
  induction l with
  | nil => rfl
  | cons a rest ih =>
    rw [List.map_cons, h a (by simp), ih (fun b hb => h b (by simp [hb]))]

theorem clearLatest_filter_ne (pts : List PointFeature) (tid gid : String)
    (h : tid ≠ gid) :
    (clearLatest pts gid).filter (fun f => f.identifier == tid)
      = pts.filter (fun f => f.identifier == tid) := by
  unfold clearLatest
  rw [filter_map_comm _ tid
    (fun f => by by_cases hc : f.identifier = gid ∧ f.isLatest = true <;>
      simp [hc])]
  apply map_eq_self_of
  intro f hf
  rw [if_neg]
  intro hc
  have hft : f.identifier = tid := by simpa using List.of_mem_filter hf
  exact h (hft.symm.trans hc.1)

theorem pointsStep_trail_cleared (pts : List PointFeature) (g : GeoData)
    (idx : ℕ) (tid : String)
    (h : ∀ f ∈ (pts.filter (fun f => f.identifier == tid)).dropLast,
        f.isLatest = false) :
    ∀ f ∈ ((pointsStep pts g idx).filter
        (fun f => f.identifier == tid)).dropLast, f.isLatest = false := by
  intro f hf
  unfold pointsStep at hf
  rw [List.filter_append] at hf
  by_cases hid : g.identifier = tid
  · have hmk : [mkPointFeature g idx].filter (fun f => f.identifier == tid)
        = [mkPointFeature g idx] := by
      simp [mkPointFeature, hid]
    rw [hmk, List.dropLast_concat] at hf
    have hmem := List.mem_of_mem_filter hf
    have hfid : f.identifier = tid := by simpa using List.of_mem_filter hf
    exact mem_clearLatest_cleared pts g.identifier f hmem (hfid.trans hid.symm)
  · have hmk : [mkPointFeature g idx].filter (fun f => f.identifier == tid)
        = [] := by
      simp [mkPointFeature, hid]
    rw [hmk, List.append_nil] at hf
    rw [clearLatest_filter_ne pts tid g.identifier (fun e => hid e.symm)] at hf
    exact h f hf

theorem foldl_trail_cleared (evs : List GeoData) (s : MapState) (tid : String)
    (h : ∀ f ∈ (s.points.filter (fun f => f.identifier == tid)).dropLast,
        f.isLatest = false) :
    ∀ f ∈ (((evs.foldl processEvent s).points).filter
        (fun f => f.identifier == tid)).dropLast, f.isLatest = false := by
  induction evs generalizing s with
  | nil => exact h
  | cons g evs ih =>
    rw [List.foldl_cons]
    exact ih (processEvent s g) (pointsStep_trail_cleared s.points g _ tid h)

theorem filter_latest_le_one (l : List PointFeature)
    (h : ∀ f ∈ l.dropLast, f.isLatest = false) :
    (l.filter (fun f => f.isLatest)).length ≤ 1 := by
  by_cases hl : l = []
  · subst hl; simp
  · rw [← List.dropLast_append_getLast hl, List.filter_append]
    have hnil : l.dropLast.filter (fun f => f.isLatest) = [] := by
      rw [List.filter_eq_nil_iff]
      intro f hf
      simp [h f hf]
    rw [hnil, List.nil_append]
    exact le_trans (List.length_filter_le _ _) (by simp)

theorem latest_is_last (l : List PointFeature)
    (h : ∀ f ∈ l.dropLast, f.isLatest = false) (f : PointFeature)
    (hf : f ∈ l) (hl : f.isLatest = true) : l.getLast? = some f := by
  have hne : l ≠ [] := by rintro rfl; simp at hf
  rw [List.getLast?_eq_getLast l hne]
  rw [← List.dropLast_append_getLast hne] at hf
  rcases List.mem_append.mp hf with hmem | hmem
  · rw [h f hmem] at hl
    cases hl
  · have : f = l.getLast hne := by simpa using hmem
    rw [this]

/-- Claim C5: after the Client Reconstructor processes any sequence of events
from its initial state, each per-identifier trail of point features has at
most one feature flagged latest, and any feature flagged latest is the most
recently appended point of that trail. -/
theorem latest_flag_unique (evs : List GeoData) (tid : String) :
    ((trailOf evs tid).filter (fun f => f.isLatest)).length ≤ 1
    ∧ ∀ f ∈ trailOf evs tid, f.isLatest = true
        → (trailOf evs tid).getLast? = some f := by
  have hinv : ∀ f ∈ (trailOf evs tid).dropLast, f.isLatest = false :=
    foldl_trail_cleared evs initialMapState tid
      (by intro f hf; simp [initialMapState] at hf)
  exact ⟨filter_latest_le_one _ hinv, fun f hf hl => latest_is_last _ hinv f hf hl⟩

/-- Witness for C5 at a concrete two-event stream for one vehicle. -/
theorem latest_flag_unique_witness :
    ((trailOf [gd0, gd1] "VEHICLE-001").filter (fun f => f.isLatest)).length ≤ 1 :=
  (latest_flag_unique [gd0, gd1] "VEHICLE-001").1

/-! ## Rounding and clamping lemmas -/

theorem round6_le (x b : ℚ) (n : ℤ) (hb : (n : ℚ) = b * 1000000) (h : x ≤ b) :
    round6 x ≤ b := by
  unfold round6 jsRound
  rw [div_le_iff₀ (by norm_num : (0 : ℚ) < 1000000)]
  have hx : x * 1000000 ≤ b * 1000000 := by nlinarith
  have hfl : ⌊x * 1000000 + 1 / 2⌋ < n + 1 := by
    apply Int.floor_lt.mpr
    push_cast
    rw [hb]
    linarith
  have hle : (⌊x * 1000000 + 1 / 2⌋ : ℤ) ≤ n := by omega
  calc (⌊x * 1000000 + 1 / 2⌋ : ℚ) ≤ (n : ℚ) := by exact_mod_cast hle
    _ = b * 1000000 := hb

theorem le_round6 (x b : ℚ) (n : ℤ) (hb : (n : ℚ) = b * 1000000) (h : b ≤ x) :
    b ≤ round6 x := by
  unfold round6 jsRound
  rw [le_div_iff₀ (by norm_num : (0 : ℚ) < 1000000)]
  have hx : b * 1000000 ≤ x * 1000000 := by nlinarith
  have hfl : n ≤ ⌊x * 1000000 + 1 / 2⌋ := by
    apply Int.le_floor.mpr
    rw [hb]
    linarith
  calc b * 1000000 = (n : ℚ) := hb.symm
    _ ≤ (⌊x * 1000000 + 1 / 2⌋ : ℚ) := by exact_mod_cast hfl

theorem clampLat_bounds (x : ℚ) :
    BOUNDS.minLat ≤ clampLat x ∧ clampLat x ≤ BOUNDS.maxLat := by
  unfold clampLat
  refine ⟨le_max_left _ _, max_le ?_ (min_le_left _ _)⟩
  norm_num [BOUNDS]

theorem clampLon_bounds (x : ℚ) :
    BOUNDS.minLon ≤ clampLon x ∧ clampLon x ≤ BOUNDS.maxLon := by
  unfold clampLon
  refine ⟨le_max_left _ _, max_le ?_ (min_le_left _ _)⟩
  norm_num [BOUNDS]

/-! ## Association list (JS Map) lemmas -/

theorem assocLookup_assocSet_same {β : Type} (l : List (String × β))
    (k : String) (v : β) : assocLookup (assocSet l k v) k = some v := by
  induction l with
  | nil => simp [assocSet, assocLookup]
  | cons e rest ih =>
    obtain ⟨k0, v0⟩ := e
    by_cases hk : k0 = k
    · simp [assocSet, hk, assocLookup]
    · simp [assocSet, hk, assocLookup, ih]

theorem assocLookup_assocSet_ne {β : Type} (l : List (String × β))
    (k k1 : String) (v : β) (h : k1 ≠ k) :
    assocLookup (assocSet l k v) k1 = assocLookup l k1 := by
  induction l with
  | nil =>
    have hne : ¬k = k1 := fun e => h e.symm
    simp [assocSet, assocLookup, hne]
  | cons e rest ih =>
    obtain ⟨k0, v0⟩ := e
    by_cases hk : k0 = k
    · subst hk
      have hne : ¬k0 = k1 := fun e => h e.symm
      simp [assocSet, assocLookup, hne]
    · simp [assocSet, hk, assocLookup, ih]

/-! ## Claim C6 -/

/-- Claim C6: every event the generator produces has latitude within
[BOUNDS.minLat, BOUNDS.maxLat] and longitude within
[BOUNDS.minLon, BOUNDS.maxLon], the rounding to 6 decimal places included. -/
theorem generated_within_bounds (pool : List Vehicle) (rIdx : ℕ) (r1 r2 : ℚ)
    (nowMs nowIso : String) (s : SimState) (g : GeoData) (s1 : SimState)
    (h : generateRandomGeoData pool rIdx r1 r2 nowMs nowIso s = some (g, s1)) :
    BOUNDS.minLat ≤ g.lat ∧ g.lat ≤ BOUNDS.maxLat
    ∧ BOUNDS.minLon ≤ g.lon ∧ g.lon ≤ BOUNDS.maxLon := by
  cases hv : pool[rIdx]? with
  | none =>
    simp only [generateRandomGeoData, hv] at h
    exact Option.noConfusion h
  | some vehicle =>
    cases hp : assocLookup s.currentPositions vehicle.id with
    | none =>
      simp only [generateRandomGeoData, hv, hp] at h
      exact Option.noConfusion h
    | some currentPos =>
      simp only [generateRandomGeoData, hv, hp, Option.some.injEq,
        Prod.mk.injEq] at h
      obtain ⟨hg, _⟩ := h
      subst hg
      refine ⟨?_, ?_, ?_, ?_⟩
      · exact le_round6 _ _ 35000000 (by norm_num [BOUNDS]) (clampLat_bounds _).1
      · exact round6_le _ _ 60000000 (by norm_num [BOUNDS]) (clampLat_bounds _).2
      · exact le_round6 _ _ (-10000000) (by norm_num [BOUNDS]) (clampLon_bounds _).1
      · exact round6_le _ _ 30000000 (by norm_num [BOUNDS]) (clampLon_bounds _).2

/-- The event produced by the first tick at concrete randomness 0. -/
def witnessGeo : GeoData :=
  { id := "geo-x-1", name := "Truck Alpha", lat := 52.37, lon := 13.255,
    identifier := "VEHICLE-001", timestamp := "y" }

/-- The simulator state after that first tick. -/
def witnessSim : SimState :=
  { currentPositions :=
      [("VEHICLE-001", (52.37, 13.255)), ("VEHICLE-002", (48.8566, 2.3522)),
       ("VEHICLE-003", (51.5074, -0.1278)), ("VEHICLE-004", (41.9028, 12.4964)),
       ("VEHICLE-005", (52.3676, 4.9041))],
    counter := 1 }

/-- Witness for C6 at a concrete tick from the initial simulator state. -/
theorem generated_within_bounds_witness :
    BOUNDS.minLat ≤ witnessGeo.lat ∧ witnessGeo.lat ≤ BOUNDS.maxLat
    ∧ BOUNDS.minLon ≤ witnessGeo.lon ∧ witnessGeo.lon ≤ BOUNDS.maxLon :=
  generated_within_bounds IDENTIFIER_POOL 0 0 0 "x" "y" initSimState
    witnessGeo witnessSim (by with_unfolding_all rfl)

/-! ## Claim C7 -/

/-- Claim C7, as stated, is false: with an empty entity pool startGeoSimulator
does not refuse to start with a configuration error — it starts normally, and
the failure only occurs at runtime when the first tick runs
generateRandomGeoData, which hits the undefined pool element. -/
theorem empty_pool_startup_counterexample :
    startGeoSimulator [] 5000 = StartOutcome.started
    ∧ startGeoSimulator [] 5000 ≠ StartOutcome.configError
    ∧ generateRandomGeoData [] 0 0 0 "0" "t"
        { currentPositions := [], counter := 0 } = none := by
  decide

/-- Claim C7 (amended): startGeoSimulator performs no validation of the
entity pool, so with an empty pool it starts normally — the failure surfaces
only at runtime, when a tick calls generateRandomGeoData and the selected
pool element is undefined, never as a fatal configuration error at startup. -/
theorem empty_pool_starts_then_tick_fails (intervalMs rIdx : ℕ) (r1 r2 : ℚ)
    (nowMs nowIso : String) (s : SimState) :
    startGeoSimulator [] intervalMs = StartOutcome.started
    ∧ generateRandomGeoData [] rIdx r1 r2 nowMs nowIso s = none := by
  refine ⟨rfl, ?_⟩
  unfold generateRandomGeoData
  simp

/-! ## Claim C8 -/

/-- Claim C8: a successful generator tick updates the stored position of
exactly the selected pool member — the one whose id the produced event
carries — and leaves every other stored position unchanged; the event's
coordinates are the 6-decimal rounding of the newly stored position. -/
theorem tick_mutates_only_selected (pool : List Vehicle) (rIdx : ℕ)
    (r1 r2 : ℚ) (nowMs nowIso : String) (s : SimState) (g : GeoData)
    (s1 : SimState)
    (h : generateRandomGeoData pool rIdx r1 r2 nowMs nowIso s = some (g, s1)) :
    (∀ k, k ≠ g.identifier →
      assocLookup s1.currentPositions k = assocLookup s.currentPositions k)
    ∧ ∃ p : ℚ × ℚ, assocLookup s1.currentPositions g.identifier = some p
        ∧ g.lat = round6 p.1 ∧ g.lon = round6 p.2 := by
  cases hv : pool[rIdx]? with
  | none =>
    simp only [generateRandomGeoData, hv] at h
    exact Option.noConfusion h
  | some vehicle =>
    cases hp : assocLookup s.currentPositions vehicle.id with
    | none =>
      simp only [generateRandomGeoData, hv, hp] at h
      exact Option.noConfusion h
    | some currentPos =>
      simp only [generateRandomGeoData, hv, hp, Option.some.injEq,
        Prod.mk.injEq] at h
      obtain ⟨hg, hs⟩ := h
      subst hg
      subst hs
      constructor
      · intro k hk
        exact assocLookup_assocSet_ne s.currentPositions vehicle.id k _ hk
      · exact ⟨_, assocLookup_assocSet_same s.currentPositions vehicle.id _,
          rfl, rfl⟩

/-- Witness for C8 at a concrete tick: the position of VEHICLE-002 is
untouched by a tick that selects VEHICLE-001. -/
theorem tick_mutates_only_selected_witness :
    assocLookup witnessSim.currentPositions "VEHICLE-002"
      = assocLookup initSimState.currentPositions "VEHICLE-002" :=
  (tick_mutates_only_selected IDENTIFIER_POOL 0 0 0 "x" "y" initSimState
    witnessGeo witnessSim (by with_unfolding_all rfl)).1 "VEHICLE-002" (by decide)

end LiveTracking
